import Mathlib

set_option maxRecDepth 16384

/-!
Verification of the pace-up-backend plan-generation pipeline.

The repository consists of five redundant serverless-handler variants of one
pipeline (authenticate via a bearer token, build a prompt from the request
body's profileData, call one generative-AI backend, extract a JSON document
from its free-text reply, and upsert either the plan or a failure-diagnostic
record into the profiles store, keyed by the id column).

This file shallowly embeds the handlers.  External collaborators are modelled
as oracles carried in an environment record: the identity verifier
(admin.auth().verifyIdToken), the generation backend (the single model call a
handler makes), JSON.parse, and the success-path upsert outcome.  The
persistence collaborator follows the contract the specification assigns to it:
upsert by the id key, all-or-nothing, full overwrite of the record at that
key.  JavaScript data is modelled as follows: objects are ordered association
lists written with JS object-literal semantics (later keys overwrite earlier
ones), strings are Lean Strings, and JS falsiness of the values that occur
here (undefined, null, false, 0, the empty string) is modelled explicitly.
-/

/-- Model of a parsed JSON value (the result of JSON.parse and the payloads
stored in the profiles table).  Numbers are modelled as integers, which covers
every value these handlers manipulate. -/
inductive Json where
  | null
  | bool (b : Bool)
  | num (n : Int)
  | str (s : String)
  | arr (elems : List Json)
  | obj (fields : List (String × Json))

/-- Look a key up in a modelled JS object (first matching key wins, matching
JS objects, whose keys are unique). -/
def lookupField : List (String × Json) → String → Option Json
  | [], _ => none
  | kv :: rest, k => if kv.1 = k then some kv.2 else lookupField rest k

/-- JS object-literal assignment `o[k] = v`: overwrite the binding in place if
the key is present, otherwise append it.  Building an object literal
`\x7b a: x, ...spread, b: y \x7d` is a sequence of such assignments. -/
def objSet : List (String × Json) → String → Json → List (String × Json)
  | [], k, v => [(k, v)]
  | kv :: rest, k, v => if kv.1 = k then (k, v) :: rest else kv :: objSet rest k v

/-- JS property access `j.k`: field lookup on objects, undefined otherwise. -/
def jGet : Json → String → Option Json
  | Json.obj fields, k => lookupField fields k
  | _, _ => none

/-- JS falsiness of an optional JSON value: undefined, null, false, 0 and ""
are falsy (NaN does not arise in the integer model). -/
def jsFalsy : Option Json → Bool
  | none => true
  | some Json.null => true
  | some (Json.bool false) => true
  | some (Json.num 0) => true
  | some (Json.str "") => true
  | some _ => false

/-- JS `s || d` for an optional string `s` (undefined and "" select the
default), as used for `aiResponse || "Nenhuma resposta recebida da IA."`. -/
def jsOrStr : Option String → String → String
  | none, d => d
  | some s, d => if s = "" then d else s

/-- The sentinel the handlers store when no provider text was captured. -/
def noResponse : String := "Nenhuma resposta recebida da IA."

/-- The failure-diagnostic record every catch block except part_001's and
part_002's upserts: `\x7b id: userId, planGenerationError: error.message,
rawAIResponse: aiResponse || sentinel \x7d`. -/
def failureRecord (uid msg : String) (raw : Option String) : List (String × Json) :=
  [("id", Json.str uid),
   ("planGenerationError", Json.str msg),
   ("rawAIResponse", Json.str (jsOrStr raw noResponse))]

/-- part_002's failure-diagnostic record, which stores the error stack:
`\x7b id: userId, planGenerationError: error.message, rawAIResponse:
error.stack || sentinel \x7d`. -/
def failureRecordStack (uid msg : String) (stack : Option String) : List (String × Json) :=
  [("id", Json.str uid),
   ("planGenerationError", Json.str msg),
   ("rawAIResponse", Json.str (jsOrStr stack noResponse))]

/-- The success record every variant builds before the final upsert:
`\x7b id: userId, ...profileData, workout_plan: plan, planGenerationError:
null, rawAIResponse: null \x7d`, with JS spread semantics (later keys
overwrite earlier ones, so a key inside profileData overwrites the id written
just before it). -/
def finalUserData (uid : String) (pd : List (String × Json)) (plan : Json) :
    List (String × Json) :=
  let o0 := objSet [] "id" (Json.str uid)
  let o1 := pd.foldl (fun acc kv => objSet acc kv.1 kv.2) o0
  let o2 := objSet o1 "workout_plan" plan
  let o3 := objSet o2 "planGenerationError" Json.null
  objSet o3 "rawAIResponse" Json.null

/-! ## Bearer-token extraction

Every handler runs `request.headers.authorization?.split('Bearer ')[1]` and
answers 401 when the result is falsy.  `String.prototype.split` with a
non-empty string separator cuts at the leftmost occurrence and recurses on
the remainder, so we embed exactly that. -/

/-- The split separator `'Bearer '` (seven characters). -/
def bearerSep : List Char := "Bearer ".data

/-- Index of the first position at which `sep` occurs as a prefix of the
corresponding suffix of `s` (the JS `indexOf`). -/
def findSub (sep : List Char) : List Char → Option Nat
  | [] => if sep = [] then some 0 else none
  | c :: rest =>
    if sep.isPrefixOf (c :: rest) then some 0
    else (findSub sep rest).map (· + 1)

/-- Fuel-driven worker for the JS split on `'Bearer '`; the fuel only needs to
exceed the number of separator occurrences, and each step consumes seven
characters, so `length + 1` always suffices. -/
def jsSplitBearerAux : Nat → List Char → List (List Char)
  | 0, s => [s]
  | fuel + 1, s =>
    match findSub bearerSep s with
    | none => [s]
    | some i => s.take i :: jsSplitBearerAux fuel (s.drop (i + 7))

/-- JS `s.split('Bearer ')`. -/
def jsSplitBearer (s : List Char) : List (List Char) :=
  jsSplitBearerAux (s.length + 1) s

/-- The handlers' token extraction combined with their falsy gate:
`authorization?.split('Bearer ')[1]` followed by `if (!firebaseToken)`.
Returns the token that passes the gate, or none exactly when the handler
answers 401. -/
def extractToken (auth : Option String) : Option String :=
  match auth with
  | none => none
  | some s =>
    match (jsSplitBearer s.data).get? 1 with
    | none => none
    | some t => if t = [] then none else some (String.mk t)

/-! ## Document extraction

part_000, part_003 and the Gemini variant of generatePlan.ts run
`aiResponse.match(/\x7b[\s\S]*\x7d/)` and throw when there is no match.  We
embed the regex engine's behaviour for this pattern directly: try each start
position from the left; at a position holding `'\x7b'` the greedy
`[\s\S]*` runs to the end of the input and backtracks to the last
`'\x7d'`; if no closing brace follows, the engine advances to the next
start position. -/

/-- Index of the first occurrence of a character. -/
def firstIdxOf (c : Char) : List Char → Option Nat
  | [] => none
  | a :: rest => if a = c then some 0 else (firstIdxOf c rest).map (· + 1)

/-- Index of the last occurrence of a character. -/
def lastIdxOf (c : Char) : List Char → Option Nat
  | [] => none
  | a :: rest =>
    match lastIdxOf c rest with
    | some j => some (j + 1)
    | none => if a = c then some 0 else none

/-- Leftmost-greedy match of the source regex `/\x7b[\s\S]*\x7d/`. -/
def regexMatchBrace : List Char → Option (List Char)
  | [] => none
  | a :: rest =>
    if a = '\x7b' then
      match lastIdxOf '\x7d' rest with
      | some j => some ('\x7b' :: rest.take (j + 1))
      | none => regexMatchBrace rest
    else regexMatchBrace rest

/-- Modelled from the spec: the specification describes extraction as taking
the substring from the first `'\x7b'` to the last `'\x7d'`, inclusive,
whenever such a span exists.  Stated as a second definition so the regex
embedding can be proved to refine it. -/
def specFirstLastSlice (cs : List Char) : Option (List Char) :=
  match firstIdxOf '\x7b' cs, lastIdxOf '\x7d' cs with
  | some i, some j => if i < j then some ((cs.drop i).take (j - i + 1)) else none
  | _, _ => none

/-- A brace-delimited span: an opening brace strictly before a closing one. -/
def braceSpanExists (cs : List Char) : Prop :=
  ∃ i j, i < j ∧ cs.get? i = some '\x7b' ∧ cs.get? j = some '\x7d'

/-- The handlers' extraction step over strings. -/
def extract (s : String) : Option String :=
  (regexMatchBrace s.data).map String.mk

/-! ## The orchestrating handler

`runPipeline` embeds the Gemini variant of src/api/generatePlan.ts (the same
skeleton as part_000 and part_003): method gate, token gate, verifyIdToken,
profileData gate, one model call, the empty-response check, regex extraction,
JSON.parse, and the success upsert, with the single catch block that upserts
a failure record whenever userId is already assigned.  External collaborators
are oracles in the environment; the generation backend is an oracle indexed
by call number, of which the code consults only call 0 because every handler
makes exactly one model call to one fixed model. -/

structure PipelineEnv where
  method : String
  authorization : Option String
  profileData : Option (List (String × Json))
  verify : String → Except String String
  generate : Nat → Except String String
  parse : String → Except String Json
  storeError : Option String

structure PipelineOut where
  status : Nat
  body : Option String
  upserts : List (List (String × Json))
  verifyCalled : Bool
  providerCalled : Bool

def msgNoToken : String := "Nenhum token fornecido."
def msgNoProfile : String := "profileData é obrigatório."
def msgNoContent : String := "A IA não retornou conteúdo."
def msgNoJson : String := "Nenhum JSON válido encontrado na resposta da IA."

def runPipeline (env : PipelineEnv) : PipelineOut :=
  if env.method ≠ "POST" then ⟨405, some "Método não permitido.", [], false, false⟩
  else
    match extractToken env.authorization with
    | none => ⟨401, some msgNoToken, [], false, false⟩
    | some tok =>
      match env.verify tok with
      | Except.error e => ⟨500, some e, [], true, false⟩
      | Except.ok uid =>
        match env.profileData with
        | none => ⟨400, some msgNoProfile, [], true, false⟩
        | some pd =>
          match env.generate 0 with
          | Except.error e => ⟨500, some e, [failureRecord uid e none], true, true⟩
          | Except.ok text =>
            if text = "" then
              ⟨500, some msgNoContent, [failureRecord uid msgNoContent (some text)], true, true⟩
            else
              match extract text with
              | none => ⟨500, some msgNoJson, [failureRecord uid msgNoJson (some text)], true, true⟩
              | some cleaned =>
                match env.parse cleaned with
                | Except.error e => ⟨500, some e, [failureRecord uid e (some text)], true, true⟩
                | Except.ok plan =>
                  match env.storeError with
                  | some e => ⟨500, some e, [failureRecord uid e (some text)], true, true⟩
                  | none => ⟨200, none, [finalUserData uid pd plan], true, true⟩

/-! ## The part_002 handler (OpenAI, week-key check, stack in the diagnostic)

part_002 differs from the main skeleton in three ways: the provider content
may be null (`choices[0].message?.content`), a parsed plan with any falsy
week1..week4 key is rejected with "Plano incompleto gerado pela IA.", and the
catch block stores `error.stack || sentinel` instead of the raw provider
text.  The stack of a thrown error is runtime-generated, so it is an oracle
from the error message. -/

/-- part_002's week-key check (its only plan validation):
`if (!json.week1 || !json.week2 || !json.week3 || !json.week4) throw`. -/
def weekCheckP2 (j : Json) : Except String Json :=
  if jsFalsy (jGet j "week1") || jsFalsy (jGet j "week2")
      || jsFalsy (jGet j "week3") || jsFalsy (jGet j "week4") then
    Except.error "Plano incompleto gerado pela IA."
  else Except.ok j

structure EnvP2 where
  method : String
  authorization : Option String
  profileData : Option (List (String × Json))
  verify : String → Except String String
  chat : Except String (Option String)
  parse : String → Option Json
  stackOf : String → Option String
  storeError : Option String

def msgEmptyOpenAI : String := "Resposta vazia da OpenAI."
def msgBadParse : String := "Erro ao parsear JSON da IA."

def runPipelineP2 (env : EnvP2) : PipelineOut :=
  if env.method ≠ "POST" then ⟨405, some "Método não permitido.", [], false, false⟩
  else
    match extractToken env.authorization with
    | none => ⟨401, some msgNoToken, [], false, false⟩
    | some tok =>
      match env.verify tok with
      | Except.error e => ⟨500, some e, [], true, false⟩
      | Except.ok uid =>
        match env.profileData with
        | none => ⟨400, some msgNoProfile, [], true, false⟩
        | some pd =>
          match env.chat with
          | Except.error e =>
            ⟨500, some e, [failureRecordStack uid e (env.stackOf e)], true, true⟩
          | Except.ok content =>
            match content with
            | none =>
              ⟨500, some msgEmptyOpenAI,
               [failureRecordStack uid msgEmptyOpenAI (env.stackOf msgEmptyOpenAI)], true, true⟩
            | some ai =>
              if ai = "" then
                ⟨500, some msgEmptyOpenAI,
                 [failureRecordStack uid msgEmptyOpenAI (env.stackOf msgEmptyOpenAI)], true, true⟩
              else
                match env.parse ai with
                | none =>
                  ⟨500, some msgBadParse,
                   [failureRecordStack uid msgBadParse (env.stackOf msgBadParse)], true, true⟩
                | some plan =>
                  match weekCheckP2 plan with
                  | Except.error m =>
                    ⟨500, some m, [failureRecordStack uid m (env.stackOf m)], true, true⟩
                  | Except.ok plan2 =>
                    match env.storeError with
                    | some e =>
                      ⟨500, some e, [failureRecordStack uid e (env.stackOf e)], true, true⟩
                    | none => ⟨200, none, [finalUserData uid pd plan2], true, true⟩

/-! ## The persistence collaborator

The store is out of scope for the repository; the specification fixes its
contract: upsert by the id key, all-or-nothing per call, last-write-wins,
where upsert inserts when the key is absent and fully overwrites when it is
present.  A store maps ids to records. -/

def Store : Type := String → Option (List (String × Json))

/-- The id column a record is keyed by. -/
def recordKey (r : List (String × Json)) : Option String :=
  match lookupField r "id" with
  | some (Json.str s) => some s
  | _ => none

/-- One upsert, per the specification's collaborator contract: full overwrite
of the record at the id key. -/
def upsertStore (st : Store) (r : List (String × Json)) : Store :=
  match recordKey r with
  | some k => fun q => if q = k then some r else st q
  | none => st

/-- Apply a handler run's upserts in order (last write wins). -/
def applyUpserts (st : Store) (ups : List (List (String × Json))) : Store :=
  ups.foldl upsertStore st

/-- A field holding an actual (non-null) value in a persisted record. -/
def populatedF (r : List (String × Json)) (k : String) : Prop :=
  ∃ v, lookupField r k = some v ∧ v ≠ Json.null

/-- A field that is absent or explicitly null in a persisted record. -/
def clearedF (r : List (String × Json)) (k : String) : Prop :=
  lookupField r k = none ∨ lookupField r k = some Json.null

/-- Exactly one of the success group and the failure group is populated and
the other is cleared (the disjuncts exclude each other, since a field cannot
be both populated and cleared). -/
def exclusiveRecord (r : List (String × Json)) : Prop :=
  (populatedF r "workout_plan" ∧ clearedF r "planGenerationError" ∧ clearedF r "rawAIResponse")
  ∨ (clearedF r "workout_plan" ∧ populatedF r "planGenerationError" ∧ populatedF r "rawAIResponse")

/-! ## Prompt builders

A JS template literal is a concatenation of its literal chunks and its
interpolated expressions, so each builder is embedded as exactly that
concatenation, with every literal chunk transcribed from the source.  The
profile input carries the fields the builders interpolate. -/

structure ProfileInput where
  experience : String
  goal : String
  weight : Option Nat
  height : Option Nat
  run_days : List String

/-- JS `x || "não informado"` for the optional numeric fields (0 and absent
are falsy and select the placeholder; other numbers stringify). -/
def jsNumOr : Option Nat → String
  | none => "não informado"
  | some n => if n = 0 then "não informado" else toString n

/-- Substring containment, the property the builder claims are stated with. -/
def hasSub (s t : String) : Prop := t.data <:+: s.data

/-- Executable substring check, related to `hasSub` below. -/
def containsB (s t : List Char) : Bool := s.tails.any (fun suf => t.isPrefixOf suf)

def litP2a : String := "\nUm novo usuário se cadastrou com o seguinte perfil:\n- Experiência: "
def litP2b : String := "\n- Objetivo Final: "
def litP2c : String := "\n- Peso: "
def litP2d : String := " kg\n- Altura: "
def litP2e : String := " cm\n- Dias disponíveis para correr: "
def litP2f : String := "\n\nSua tarefa é criar um plano de corrida **completo de 4 semanas (week1 a week4)**.\nPara cada dia inclua:\n- \"day\": Nome do dia da semana em pt-BR\n- \"type\": Tipo do treino (Ex: Caminhada, Corrida leve, Intervalado, Descanso, Descanso ativo)\n- \"duration_minutes\": número inteiro em minutos\n- \"description\": descrição detalhada com dicas de respiração, postura e motivação.\n\nFormato obrigatório de saída:\n\x7b\n  \"week1\": [ \x7b \"day\": \"...\", \"type\": \"...\", \"duration_minutes\": 30, \"description\": \"...\" \x7d, ... ],\n  \"week2\": [...],\n  \"week3\": [...],\n  \"week4\": [...]\n\x7d\n"

/-- part_002's rendered user-turn prompt (its system turn carries no profile
data), transcribed chunk by chunk from the template literal. -/
def promptUserP2 (p : ProfileInput) : String :=
  litP2a ++ p.experience ++ litP2b ++ p.goal ++ litP2c ++ jsNumOr p.weight
    ++ litP2d ++ jsNumOr p.height ++ litP2e ++ String.intercalate ", " p.run_days ++ litP2f

def litG1a : String := "\n      Você é um coach de corrida especialista em IA chamado PaceUp.\n      Um novo usuário se cadastrou com o seguinte perfil:\n      - Experiência: "
def litG1b : String := "\n      - Objetivo Final: "
def litG1c : String := "\n      - Dias disponíveis para correr: "
def litG1d : String := "\n\n      Sua tarefa é criar um plano completo de treino para 4 semanas (week1 a week4).\n      O formato da resposta deve ser um objeto JSON válido contendo as 4 semanas.\n      As chaves do JSON devem ser: \"week1\", \"week2\", \"week3\", \"week4\".\n      Cada semana deve ser um array de objetos, onde cada objeto representa um dia e contém as chaves: \"day\", \"type\", \"duration_minutes\", e \"description\".\n      **IMPORTANTE: Todo o texto dentro do JSON, incluindo os valores para as chaves \"day\", \"type\" e \"description\", deve ser em português do Brasil.**\n    "

/-- The OpenAI variant of src/api/generatePlan.ts renders this prompt: it
interpolates experience, goal and the joined run days, and nothing else. -/
def promptGP1 (p : ProfileInput) : String :=
  litG1a ++ p.experience ++ litG1b ++ p.goal ++ litG1c
    ++ String.intercalate ", " p.run_days ++ litG1d

/-! ## generateMonthDays (part_000 / part_003)

The helper reads the clock (`new Date()`); the clock is modelled as the
year/month pair the Date carries.  `new Date(year, month + 1, 0).getDate()`
is the day count of the month in the proleptic Gregorian calendar, the
weekday of `new Date(year, month, d)` is modelled by Zeller's congruence
converted to the JS getDay convention (0 = Sunday), and the pt-BR long
weekday names of `Intl.DateTimeFormat('pt-BR', \x7b weekday: 'long' \x7d)`
are a fixed seven-entry table. -/

def isLeapYear (y : Nat) : Bool :=
  ((y % 4 == 0) && (y % 100 != 0)) || (y % 400 == 0)

/-- Days in JS month `m` (0-based) of year `y`. -/
def daysInMonth (y m : Nat) : Nat :=
  match m with
  | 0 => 31
  | 1 => if isLeapYear y then 29 else 28
  | 2 => 31
  | 3 => 30
  | 4 => 31
  | 5 => 30
  | 6 => 31
  | 7 => 31
  | 8 => 30
  | 9 => 31
  | 10 => 30
  | _ => 31

/-- Weekday of day `d` of JS month `m` (0-based) of year `y`, in the JS
getDay convention (0 = Sunday .. 6 = Saturday), by Zeller's congruence. -/
def dayOfWeek (y m d : Nat) : Nat :=
  let mm := if m + 1 ≤ 2 then m + 13 else m + 1
  let yy := if m + 1 ≤ 2 then y - 1 else y
  let k := yy % 100
  let j := yy / 100
  let h := (d + 13 * (mm + 1) / 5 + k + k / 4 + j / 4 + 5 * j) % 7
  (h + 6) % 7

/-- The pt-BR long weekday names, indexed by the JS getDay value. -/
def weekdayName : Nat → String
  | 0 => "domingo"
  | 1 => "segunda-feira"
  | 2 => "terça-feira"
  | 3 => "quarta-feira"
  | 4 => "quinta-feira"
  | 5 => "sexta-feira"
  | _ => "sábado"

/-- ASCII uppercasing of one character, the relevant fragment of JS
`toUpperCase` (every first letter of the pt-BR weekday names is ASCII). -/
def upper1 (c : Char) : Char :=
  if 'a' ≤ c ∧ c ≤ 'z' then Char.ofNat (c.toNat - 32) else c

/-- `dayName.charAt(0).toUpperCase() + dayName.slice(1)`. -/
def capitalizeFirst (s : String) : String :=
  match s.data with
  | [] => s
  | c :: rest => String.mk (upper1 c :: rest)

/-- The helper's loop `for (d = 1; d <= endDate.getDate(); d++)`, pushing the
capitalized formatted weekday name of each date of the month. -/
def generateMonthDays (y m : Nat) : List String :=
  (List.range (daysInMonth y m)).map
    (fun i => capitalizeFirst (weekdayName (dayOfWeek y m (i + 1))))

/-- The capitalized pt-BR weekday names. -/
def ptBrCapitalizedNames : List String :=
  ["Domingo", "Segunda-feira", "Terça-feira", "Quarta-feira",
   "Quinta-feira", "Sexta-feira", "Sábado"]

/-! ## Concrete environments used to evaluate the handlers -/

/-- A JSON.parse oracle defined on the one document the concrete runs use. -/
def parseWeek1Only : String → Except String Json := fun s =>
  if s = "\x7b\"week1\":[]\x7d" then Except.ok (Json.obj [("week1", Json.arr [])])
  else Except.error "Unexpected token"

/-- A request whose verification fails (expired/invalid token). -/
def envVerifyFails : PipelineEnv :=
  ⟨"POST", some "Bearer tok123", some [],
   fun _ => Except.error "Token inválido.",
   fun _ => Except.ok "\x7b\"week1\":[]\x7d", parseWeek1Only, none⟩

/-- A request with no Authorization header. -/
def envNoAuth : PipelineEnv :=
  ⟨"POST", none, some [],
   fun _ => Except.ok "u1",
   fun _ => Except.ok "\x7b\"week1\":[]\x7d", parseWeek1Only, none⟩

/-- A request whose single provider call fails (quota). -/
def envGenFails : PipelineEnv :=
  ⟨"POST", some "Bearer t", some [],
   fun _ => Except.ok "u1",
   fun _ => Except.error "quota exceeded", parseWeek1Only, none⟩

/-- The record a previous failed run left behind for subject "victim". -/
def recOldFail : List (String × Json) := failureRecord "victim" "falha antiga" none

/-- A store already holding that failure record. -/
def storeC1 : Store := fun k => if k = "victim" then some recOldFail else none

/-- A successful re-run for subject "victim" whose profileData smuggles in an
id field. -/
def envC1x : PipelineEnv :=
  ⟨"POST", some "Bearer t", some [("id", Json.str "other")],
   fun _ => Except.ok "victim",
   fun _ => Except.ok "\x7b\"week1\":[]\x7d", parseWeek1Only, none⟩

/-- A successful run with a plain profileData payload. -/
def envC1w : PipelineEnv :=
  ⟨"POST", some "Bearer t", some [("experience", Json.str "iniciante")],
   fun _ => Except.ok "u1",
   fun _ => Except.ok "\x7b\"week1\":[]\x7d", parseWeek1Only, none⟩

/-- A part_002 run whose provider text is prose that fails to parse. -/
def envP2x : EnvP2 :=
  ⟨"POST", some "Bearer t", some [],
   fun _ => Except.ok "u1",
   Except.ok (some "resposta sem json"),
   fun _ => none,
   fun m => some ("Error: " ++ m ++ "\n    at handler"),
   none⟩

/-- Provider-call oracle under which call 0 fails with an unsupported-model
error while later calls would succeed. -/
def envC8x : PipelineEnv :=
  ⟨"POST", some "Bearer t", some [],
   fun _ => Except.ok "u1",
   fun n => if n = 0 then Except.error "404 model not supported" else Except.ok "\x7b\"week1\":[]\x7d",
   parseWeek1Only, none⟩

/-- A profile that supplies every field, including weight and height. -/
def profileX : ProfileInput :=
  ⟨"iniciante", "correr 5k", some 70, some 170, ["Segunda", "Quarta"]⟩

/-- A parsed plan carrying all four week keys. -/
def weekFull : Json :=
  Json.obj [("week1", Json.arr []), ("week2", Json.arr []),
            ("week3", Json.arr []), ("week4", Json.arr [])]

/-- A provider-call oracle that agrees with envGenFails on call 0 but answers
later calls differently. -/
def genAlt : Nat → Except String String := fun n =>
  if n = 0 then Except.error "quota exceeded" else Except.ok "outra resposta"

/-- The text after the first occurrence of `'Bearer '` (at index `i`), up to
but not including the next occurrence, or to the end when the occurrence is
unique: the segment JS `split` places at index 1. -/
def segmentAfterFirstBearer (s : List Char) (i : Nat) : List Char :=
  match findSub bearerSep (s.drop (i + 7)) with
  | none => s.drop (i + 7)
  | some j => (s.drop (i + 7)).take j

/-! ## Helper lemmas about the object model -/

theorem lookup_objSet_self (o : List (String × Json)) (k : String) (v : Json) :
    lookupField (objSet o k v) k = some v := by
  induction o with
  | nil => simp [objSet, lookupField]
  | cons kv rest ih =>
    by_cases h : kv.1 = k
    · simp [objSet, h, lookupField]
    · simp [objSet, h, lookupField, ih]

theorem lookup_objSet_other (o : List (String × Json)) (k k' : String) (v : Json)
    (hne : k' ≠ k) : lookupField (objSet o k v) k' = lookupField o k' := by
  induction o with
  | nil => simp [objSet, lookupField, Ne.symm hne]
  | cons kv rest ih =>
    by_cases h : kv.1 = k
    · simp [objSet, h, lookupField, Ne.symm hne]
    · simp [objSet, h, lookupField, ih]

theorem lookup_foldl_objSet (pd : List (String × Json)) (o : List (String × Json))
    (k : String) (h : ∀ kv ∈ pd, kv.1 ≠ k) :
    lookupField (pd.foldl (fun acc kv => objSet acc kv.1 kv.2) o) k = lookupField o k := by
  induction pd generalizing o with
  | nil => rfl
  | cons kv rest ih =>
    rw [List.foldl_cons, ih _ (fun x hx => h x (by simp [hx]))]
    exact lookup_objSet_other _ _ _ _ (fun he => (h kv (by simp)) he.symm)

theorem fud_id (uid : String) (pd : List (String × Json)) (plan : Json)
    (h : ∀ kv ∈ pd, kv.1 ≠ "id") :
    lookupField (finalUserData uid pd plan) "id" = some (Json.str uid) := by
  simp only [finalUserData]
  rw [lookup_objSet_other _ _ _ _ (by decide), lookup_objSet_other _ _ _ _ (by decide),
      lookup_objSet_other _ _ _ _ (by decide), lookup_foldl_objSet _ _ _ h,
      lookup_objSet_self]

theorem fud_plan (uid : String) (pd : List (String × Json)) (plan : Json) :
    lookupField (finalUserData uid pd plan) "workout_plan" = some plan := by
  simp only [finalUserData]
  rw [lookup_objSet_other _ _ _ _ (by decide), lookup_objSet_other _ _ _ _ (by decide),
      lookup_objSet_self]

theorem fud_pge (uid : String) (pd : List (String × Json)) (plan : Json) :
    lookupField (finalUserData uid pd plan) "planGenerationError" = some Json.null := by
  simp only [finalUserData]
  rw [lookup_objSet_other _ _ _ _ (by decide), lookup_objSet_self]

theorem fud_raw (uid : String) (pd : List (String × Json)) (plan : Json) :
    lookupField (finalUserData uid pd plan) "rawAIResponse" = some Json.null := by
  simp only [finalUserData]
  rw [lookup_objSet_self]

theorem recordKey_fud (uid : String) (pd : List (String × Json)) (plan : Json)
    (h : ∀ kv ∈ pd, kv.1 ≠ "id") :
    recordKey (finalUserData uid pd plan) = some uid := by
  unfold recordKey
  rw [fud_id uid pd plan h]

theorem lookup_failureRecord_id (uid msg : String) (raw : Option String) :
    lookupField (failureRecord uid msg raw) "id" = some (Json.str uid) := by
  simp [failureRecord, lookupField]

theorem lookup_failureRecord_plan (uid msg : String) (raw : Option String) :
    lookupField (failureRecord uid msg raw) "workout_plan" = none := by
  simp [failureRecord, lookupField]

theorem lookup_failureRecord_pge (uid msg : String) (raw : Option String) :
    lookupField (failureRecord uid msg raw) "planGenerationError" = some (Json.str msg) := by
  simp [failureRecord, lookupField]

theorem lookup_failureRecord_raw (uid msg : String) (raw : Option String) :
    lookupField (failureRecord uid msg raw) "rawAIResponse"
      = some (Json.str (jsOrStr raw noResponse)) := by
  simp [failureRecord, lookupField]

theorem recordKey_failureRecord (uid msg : String) (raw : Option String) :
    recordKey (failureRecord uid msg raw) = some uid := by
  unfold recordKey
  rw [lookup_failureRecord_id]

/-! ## Helper lemmas about the token split -/

theorem findSub_le (sep s : List Char) (i : Nat) (h : findSub sep s = some i) :
    i + sep.length ≤ s.length := by
  induction s generalizing i with
  | nil =>
    by_cases hsep : sep = []
    · simp [findSub, hsep] at h
      simp [hsep, ← h]
    · simp [findSub, hsep] at h
  | cons c rest ih =>
    by_cases hp : sep.isPrefixOf (c :: rest)
    · simp [findSub, hp] at h
      have := (List.isPrefixOf_iff_prefix.mp hp).length_le
      simp [← h]
      simpa using this
    · simp [findSub, hp] at h
      obtain ⟨i', hi', rfl⟩ := h
      have := ih i' hi'
      simp only [List.length_cons]
      omega

theorem jsSplitBearerAux_head (f : Nat) (r : List Char) :
    (jsSplitBearerAux (f + 1) r).get? 0
      = some (match findSub bearerSep r with | none => r | some j => r.take j) := by
  unfold jsSplitBearerAux
  cases hf : findSub bearerSep r <;> simp

theorem extractToken_of_findSub_none (s : String) (h : findSub bearerSep s.data = none) :
    extractToken (some s) = none := by
  have hsplit : jsSplitBearer s.data = [s.data] := by
    unfold jsSplitBearer jsSplitBearerAux
    rw [h]
  simp [extractToken, hsplit]

theorem jsSplitBearerAux_succ (fuel : Nat) (s : List Char) :
    jsSplitBearerAux (fuel + 1) s
      = match findSub bearerSep s with
        | none => [s]
        | some i => s.take i :: jsSplitBearerAux fuel (s.drop (i + 7)) := rfl

theorem extractToken_of_findSub_some (s : String) (i : Nat)
    (h : findSub bearerSep s.data = some i) :
    extractToken (some s) =
      (if segmentAfterFirstBearer s.data i = [] then none
       else some (String.mk (segmentAfterFirstBearer s.data i))) := by
  have hlen : i + 7 ≤ s.data.length := by
    have h7 : bearerSep.length = 7 := by decide
    have := findSub_le bearerSep s.data i h
    omega
  obtain ⟨f, hf⟩ : ∃ f, s.data.length = f + 1 := ⟨s.data.length - 1, by omega⟩
  have hsplit : jsSplitBearer s.data
      = s.data.take i :: jsSplitBearerAux s.data.length (s.data.drop (i + 7)) := by
    unfold jsSplitBearer
    rw [jsSplitBearerAux_succ, h]
  have hget : (jsSplitBearer s.data).get? 1
      = some (match findSub bearerSep (s.data.drop (i + 7)) with
              | none => s.data.drop (i + 7)
              | some j => (s.data.drop (i + 7)).take j) := by
    rw [hsplit]
    simp only [List.get?_cons_succ]
    rw [hf]
    exact jsSplitBearerAux_head f (s.data.drop (i + 7))
  simp only [extractToken, hget, segmentAfterFirstBearer]

/-! ## Helper lemmas about the brace extraction -/

theorem firstIdxOf_memAt (c : Char) (cs : List Char) (i : Nat)
    (h : firstIdxOf c cs = some i) : cs.get? i = some c := by
  induction cs generalizing i with
  | nil => simp [firstIdxOf] at h
  | cons a rest ih =>
    by_cases ha : a = c
    · simp [firstIdxOf, ha] at h
      simp [← h, ha]
    · simp [firstIdxOf, ha] at h
      obtain ⟨i', hi', rfl⟩ := h
      simpa using ih i' hi'

theorem firstIdxOf_min (c : Char) (cs : List Char) (i : Nat)
    (h : firstIdxOf c cs = some i) : ∀ k, cs.get? k = some c → i ≤ k := by
  induction cs generalizing i with
  | nil => intro k hk; simp at hk
  | cons a rest ih =>
    intro k hk
    by_cases ha : a = c
    · simp [firstIdxOf, ha] at h
      omega
    · simp [firstIdxOf, ha] at h
      obtain ⟨i', hi', rfl⟩ := h
      cases k with
      | zero => simp at hk; exact absurd hk ha
      | succ k' =>
        have := ih i' hi' k' (by simpa using hk)
        omega

theorem firstIdxOf_noneAt (c : Char) (cs : List Char)
    (h : firstIdxOf c cs = none) : ∀ k, cs.get? k ≠ some c := by
  induction cs with
  | nil => intro k; simp
  | cons a rest ih =>
    by_cases ha : a = c
    · simp [firstIdxOf, ha] at h
    · simp [firstIdxOf, ha] at h
      intro k
      cases k with
      | zero => simpa using ha
      | succ k' => simpa using ih h k'

theorem lastIdxOf_memAt (c : Char) (cs : List Char) (j : Nat)
    (h : lastIdxOf c cs = some j) : cs.get? j = some c := by
  induction cs generalizing j with
  | nil => simp [lastIdxOf] at h
  | cons a rest ih =>
    cases hr : lastIdxOf c rest with
    | some j' =>
      simp [lastIdxOf, hr] at h
      simpa [← h] using ih j' hr
    | none =>
      by_cases ha : a = c
      · simp [lastIdxOf, hr, ha] at h
        simp [← h, ha]
      · simp [lastIdxOf, hr, ha] at h

theorem lastIdxOf_noneAt (c : Char) (cs : List Char)
    (h : lastIdxOf c cs = none) : ∀ k, cs.get? k ≠ some c := by
  induction cs with
  | nil => intro k; simp
  | cons a rest ih =>
    cases hr : lastIdxOf c rest with
    | some j' => simp [lastIdxOf, hr] at h
    | none =>
      by_cases ha : a = c
      · simp [lastIdxOf, hr, ha] at h
      · intro k
        cases k with
        | zero => simpa using ha
        | succ k' => simpa using ih hr k'

theorem lastIdxOf_max (c : Char) (cs : List Char) (j : Nat)
    (h : lastIdxOf c cs = some j) : ∀ k, cs.get? k = some c → k ≤ j := by
  induction cs generalizing j with
  | nil => intro k hk; simp at hk
  | cons a rest ih =>
    intro k hk
    cases hr : lastIdxOf c rest with
    | some j' =>
      simp [lastIdxOf, hr] at h
      cases k with
      | zero => omega
      | succ k' =>
        have := ih j' hr k' (by simpa using hk)
        omega
    | none =>
      by_cases ha : a = c
      · simp [lastIdxOf, hr, ha] at h
        cases k with
        | zero => omega
        | succ k' =>
          exact absurd (by simpa using hk) (lastIdxOf_noneAt c rest hr k')
      · simp [lastIdxOf, hr, ha] at h

theorem regexMatchBrace_eq_spec (cs : List Char) :
    regexMatchBrace cs = specFirstLastSlice cs := by
  induction cs with
  | nil => rfl
  | cons a rest ih =>
    by_cases ha : a = '\x7b'
    · cases hl : lastIdxOf '\x7d' rest with
      | some j =>
        have hane : a ≠ '\x7d' := by rw [ha]; decide
        simp [regexMatchBrace, specFirstLastSlice, firstIdxOf, lastIdxOf, ha, hl]
      | none =>
        have hane : a ≠ '\x7d' := by rw [ha]; decide
        have hspec : specFirstLastSlice rest = none := by
          unfold specFirstLastSlice
          rw [hl]
          cases firstIdxOf '\x7b' rest <;> rfl
        simp [regexMatchBrace, specFirstLastSlice, firstIdxOf, lastIdxOf, ha, hane, hl, ih, hspec]
    · cases hf : firstIdxOf '\x7b' rest with
      | none =>
        have hspec : specFirstLastSlice rest = none := by
          unfold specFirstLastSlice
          rw [hf]
        simp [regexMatchBrace, specFirstLastSlice, firstIdxOf, ha, hf, ih, hspec]
      | some i =>
        cases hl : lastIdxOf '\x7d' rest with
        | none =>
          have hspec : specFirstLastSlice rest = none := by
            unfold specFirstLastSlice
            rw [hf, hl]
          by_cases hac : a = '\x7d'
          · simp [regexMatchBrace, specFirstLastSlice, firstIdxOf, lastIdxOf, ha, hac, hf, hl,
              ih, hspec]
          · simp [regexMatchBrace, specFirstLastSlice, firstIdxOf, lastIdxOf, ha, hac, hf, hl,
              ih, hspec]
        | some j =>
          by_cases hij : i < j
          · have harith : j + 1 - (i + 1) + 1 = j - i + 1 := by omega
            simp [regexMatchBrace, specFirstLastSlice, firstIdxOf, lastIdxOf, ha, hf, hl, ih,
              hij, harith]
          · simp [regexMatchBrace, specFirstLastSlice, firstIdxOf, lastIdxOf, ha, hf, hl, ih, hij]

theorem specSlice_none_iff (cs : List Char) :
    specFirstLastSlice cs = none ↔ ¬ braceSpanExists cs := by
  constructor
  · intro h hspan
    obtain ⟨i, j, hij, hi, hj⟩ := hspan
    cases hf : firstIdxOf '\x7b' cs with
    | none => exact firstIdxOf_noneAt _ _ hf i hi
    | some fi =>
      cases hl : lastIdxOf '\x7d' cs with
      | none => exact lastIdxOf_noneAt _ _ hl j hj
      | some lj =>
        rw [specFirstLastSlice, hf, hl] at h
        have h1 : fi ≤ i := firstIdxOf_min _ _ _ hf i hi
        have h2 : j ≤ lj := lastIdxOf_max _ _ _ hl j hj
        have : ¬ fi < lj := by
          intro hlt
          simp [hlt] at h
        omega
  · intro hns
    cases hf : firstIdxOf '\x7b' cs with
    | none => rw [specFirstLastSlice, hf]
    | some fi =>
      cases hl : lastIdxOf '\x7d' cs with
      | none => rw [specFirstLastSlice, hf, hl]
      | some lj =>
        rw [specFirstLastSlice, hf, hl]
        by_cases hij : fi < lj
        · exact absurd ⟨fi, lj, hij, firstIdxOf_memAt _ _ _ hf, lastIdxOf_memAt _ _ _ hl⟩ hns
        · simp [hij]

/-! ## Characterizations of the handler runs -/

theorem runPipeline_401 (env : PipelineEnv) (hm : env.method = "POST")
    (ht : extractToken env.authorization = none) :
    runPipeline env = ⟨401, some msgNoToken, [], false, false⟩ := by
  unfold runPipeline
  rw [hm]
  simp [ht]

theorem runPipeline_verifyError (env : PipelineEnv) (tok e : String)
    (hm : env.method = "POST") (ht : extractToken env.authorization = some tok)
    (hv : env.verify tok = Except.error e) :
    runPipeline env = ⟨500, some e, [], true, false⟩ := by
  unfold runPipeline
  rw [hm]
  simp [ht, hv]

theorem runPipeline_genError (env : PipelineEnv) (uid tok : String)
    (pdl : List (String × Json)) (e : String)
    (hm : env.method = "POST") (ht : extractToken env.authorization = some tok)
    (hv : env.verify tok = Except.ok uid) (hp : env.profileData = some pdl)
    (hg : env.generate 0 = Except.error e) :
    runPipeline env = ⟨500, some e, [failureRecord uid e none], true, true⟩ := by
  unfold runPipeline
  rw [hm]
  simp [ht, hv, hp, hg]

theorem runPipeline_emptyText (env : PipelineEnv) (uid tok : String)
    (pdl : List (String × Json))
    (hm : env.method = "POST") (ht : extractToken env.authorization = some tok)
    (hv : env.verify tok = Except.ok uid) (hp : env.profileData = some pdl)
    (hg : env.generate 0 = Except.ok "") :
    runPipeline env
      = ⟨500, some msgNoContent, [failureRecord uid msgNoContent (some "")], true, true⟩ := by
  unfold runPipeline
  rw [hm]
  simp [ht, hv, hp, hg]

theorem runPipeline_noJson (env : PipelineEnv) (uid tok text : String)
    (pdl : List (String × Json))
    (hm : env.method = "POST") (ht : extractToken env.authorization = some tok)
    (hv : env.verify tok = Except.ok uid) (hp : env.profileData = some pdl)
    (hg : env.generate 0 = Except.ok text) (hne : text ≠ "") (hx : extract text = none) :
    runPipeline env
      = ⟨500, some msgNoJson, [failureRecord uid msgNoJson (some text)], true, true⟩ := by
  unfold runPipeline
  rw [hm]
  simp [ht, hv, hp, hg, hne, hx]

theorem runPipeline_parseError (env : PipelineEnv) (uid tok text c e : String)
    (pdl : List (String × Json))
    (hm : env.method = "POST") (ht : extractToken env.authorization = some tok)
    (hv : env.verify tok = Except.ok uid) (hp : env.profileData = some pdl)
    (hg : env.generate 0 = Except.ok text) (hne : text ≠ "") (hx : extract text = some c)
    (hpe : env.parse c = Except.error e) :
    runPipeline env = ⟨500, some e, [failureRecord uid e (some text)], true, true⟩ := by
  unfold runPipeline
  rw [hm]
  simp [ht, hv, hp, hg, hne, hx, hpe]

theorem runPipeline_storeError (env : PipelineEnv) (uid tok text c e : String)
    (pdl : List (String × Json)) (plan : Json)
    (hm : env.method = "POST") (ht : extractToken env.authorization = some tok)
    (hv : env.verify tok = Except.ok uid) (hp : env.profileData = some pdl)
    (hg : env.generate 0 = Except.ok text) (hne : text ≠ "") (hx : extract text = some c)
    (hpe : env.parse c = Except.ok plan) (hs : env.storeError = some e) :
    runPipeline env = ⟨500, some e, [failureRecord uid e (some text)], true, true⟩ := by
  unfold runPipeline
  rw [hm]
  simp [ht, hv, hp, hg, hne, hx, hpe, hs]

theorem runPipeline_success (env : PipelineEnv) (uid tok text c : String)
    (pdl : List (String × Json)) (plan : Json)
    (hm : env.method = "POST") (ht : extractToken env.authorization = some tok)
    (hv : env.verify tok = Except.ok uid) (hp : env.profileData = some pdl)
    (hg : env.generate 0 = Except.ok text) (hne : text ≠ "") (hx : extract text = some c)
    (hpe : env.parse c = Except.ok plan) (hs : env.storeError = none) :
    runPipeline env = ⟨200, none, [finalUserData uid pdl plan], true, true⟩ := by
  unfold runPipeline
  rw [hm]
  simp [ht, hv, hp, hg, hne, hx, hpe, hs]

theorem applyUpserts_single (st : Store) (r : List (String × Json)) (uid : String)
    (hk : recordKey r = some uid) : applyUpserts st [r] uid = some r := by
  unfold applyUpserts upsertStore
  simp [hk]

theorem exclusive_failureRecord (uid msg : String) (raw : Option String) :
    exclusiveRecord (failureRecord uid msg raw) := by
  right
  refine ⟨Or.inl (lookup_failureRecord_plan uid msg raw),
    ⟨Json.str msg, lookup_failureRecord_pge _ _ _, by simp⟩,
    ⟨_, lookup_failureRecord_raw _ _ _, by simp⟩⟩

theorem exclusive_fud (uid : String) (pd : List (String × Json)) (plan : Json)
    (hplan : plan ≠ Json.null) : exclusiveRecord (finalUserData uid pd plan) := by
  left
  exact ⟨⟨plan, fud_plan _ _ _, hplan⟩, Or.inr (fud_pge _ _ _), Or.inr (fud_raw _ _ _)⟩

/-! ## Helper lemmas for substring containment and the calendar helper -/

theorem containsB_iff (s t : List Char) : containsB s t = true ↔ t <:+: s := by
  unfold containsB
  rw [List.any_eq_true]
  constructor
  · rintro ⟨suf, hmem, hpre⟩
    exact List.infix_iff_prefix_suffix.mpr
      ⟨suf, List.isPrefixOf_iff_prefix.mp hpre, (List.mem_tails _ _).mp hmem⟩
  · intro h
    obtain ⟨u, h1, h2⟩ := List.infix_iff_prefix_suffix.mp h
    exact ⟨u, (List.mem_tails _ _).mpr h2, List.isPrefixOf_iff_prefix.mpr h1⟩

theorem hasSub_of_eq (s t a b : String) (h : s = a ++ t ++ b) : hasSub s t := by
  subst h
  exact ⟨a.data, b.data, by simp⟩

theorem hasSub_of_part (s part t a b : String) (hs : s = a ++ part ++ b)
    (h : hasSub part t) : hasSub s t := by
  subst hs
  exact h.trans ⟨a.data, b.data, by simp⟩

theorem daysInMonth_bounds (y m : Nat) : 28 ≤ daysInMonth y m ∧ daysInMonth y m ≤ 31 := by
  rcases m with _ | _ | _ | _ | _ | _ | _ | _ | _ | _ | _ | m
  all_goals simp only [daysInMonth]
  all_goals try omega
  split <;> omega

theorem capName_mem (k : Nat) (h : k < 7) :
    capitalizeFirst (weekdayName k) ∈ ptBrCapitalizedNames := by
  interval_cases k <;> decide

/-! ## Claim theorems -/

/-- C4: for every raw provider text, the extraction step
(`match(/\x7b[\s\S]*\x7d/)`) returns exactly the substring spanning from the
first opening brace to the last closing brace, inclusive — tolerating
arbitrary leading and trailing non-brace text — and fails if and only if no
brace-delimited span exists in the text. -/
theorem c4_extraction (s : String) :
    regexMatchBrace s.data = specFirstLastSlice s.data ∧
    (extract s = none ↔ ¬ braceSpanExists s.data) := by
  refine ⟨regexMatchBrace_eq_spec s.data, ?_⟩
  unfold extract
  rw [regexMatchBrace_eq_spec s.data]
  rw [Option.map_eq_none']
  exact specSlice_none_iff s.data

/-- C4 witness: a concrete fenced reply is cut to exactly its JSON span. -/
theorem c4_witness :
    extract "Claro! Aqui vai: \x7b\"week1\":[]\x7d obrigado" = some "\x7b\"week1\":[]\x7d" := by
  have h := (c4_extraction "Claro! Aqui vai: \x7b\"week1\":[]\x7d obrigado").1
  unfold extract
  rw [h]
  rfl

/-- C10 as stated is false: the header "Bearer Bearer x" contains the
substring "Bearer x", so the claim predicts the extracted token "x", but the
JS split places at index 1 the empty segment lying between the two separator
occurrences, and the handler answers 401. -/
theorem c10_counterexample :
    extractToken (some "Bearer Bearer x") = none ∧
    "Bearer x".data <:+: "Bearer Bearer x".data := by
  exact ⟨rfl, by decide⟩

/-- C10 amended: the credential is the segment of the header between the
first occurrence of the exact case-sensitive substring "Bearer " and the next
occurrence (or the end of the header when the occurrence is unique); the
handler answers 401 with no verification call and no persistence exactly when
the header is absent, lacks that substring, or that segment is empty; in
particular a lowercase "bearer x" header is rejected. -/
theorem c10_token_rule :
    extractToken none = none ∧
    (∀ s : String, findSub bearerSep s.data = none → extractToken (some s) = none) ∧
    (∀ s : String, ∀ i : Nat, findSub bearerSep s.data = some i →
      extractToken (some s) =
        (if segmentAfterFirstBearer s.data i = [] then none
         else some (String.mk (segmentAfterFirstBearer s.data i)))) ∧
    extractToken (some "bearer x") = none ∧
    (∀ env : PipelineEnv, env.method = "POST" → extractToken env.authorization = none →
      runPipeline env = ⟨401, some msgNoToken, [], false, false⟩) :=
  ⟨rfl, extractToken_of_findSub_none, extractToken_of_findSub_some, rfl, runPipeline_401⟩

/-- C10 witness: a header with two separator occurrences yields exactly the
segment between them. -/
theorem c10_witness : extractToken (some "Bearer abcBearer d") = some "abc" := by
  have h := c10_token_rule.2.2.1 "Bearer abcBearer d" 0 (by decide)
  rw [h]
  rfl

/-- C3 as stated is false: on a request whose bearer credential fails
verification, the handler answers 500 (the generic catch), not a 401-class
response; it does make no persistence call. -/
theorem c3_counterexample :
    (runPipeline envVerifyFails).status = 500 ∧
    (runPipeline envVerifyFails).status ≠ 401 ∧
    (runPipeline envVerifyFails).upserts = [] := by
  refine ⟨rfl, ?_, rfl⟩
  have h : (runPipeline envVerifyFails).status = 500 := rfl
  rw [h]
  decide

/-- C3 amended: a missing bearer credential is answered 401 with no
verification call and no persistence; a credential the identity collaborator
rejects is answered 500 (not 401) with the verifier's message and still no
persistence, since the subject id is unknown. -/
theorem c3_auth_gate (env : PipelineEnv) (hm : env.method = "POST") :
    (extractToken env.authorization = none →
      runPipeline env = ⟨401, some msgNoToken, [], false, false⟩) ∧
    (∀ tok e, extractToken env.authorization = some tok →
      env.verify tok = Except.error e →
      runPipeline env = ⟨500, some e, [], true, false⟩) :=
  ⟨runPipeline_401 env hm, fun tok e ht hv => runPipeline_verifyError env tok e hm ht hv⟩

/-- C3 witness: the two branches evaluated on concrete requests. -/
theorem c3_witness :
    runPipeline envNoAuth = ⟨401, some msgNoToken, [], false, false⟩ ∧
    runPipeline envVerifyFails = ⟨500, some "Token inválido.", [], true, false⟩ := by
  refine ⟨(c3_auth_gate envNoAuth rfl).1 rfl, ?_⟩
  exact (c3_auth_gate envVerifyFails rfl).2 "tok123" "Token inválido." rfl rfl

/-- C1 as stated is false: a prior failure record is not always cleared by a
later successful re-invocation for the same subject, because the success
write is keyed by profileData's own id field when one is present (the JS
spread overwrites `id: userId`), leaving the subject's old failure record in
the store untouched after a 200 run. -/
theorem c1_counterexample :
    (runPipeline envC1x).status = 200 ∧
    applyUpserts storeC1 (runPipeline envC1x).upserts "victim" = some recOldFail ∧
    lookupField recOldFail "planGenerationError" = some (Json.str "falha antiga") := by
  exact ⟨rfl, rfl, rfl⟩

/-- C1 amended: provided the request's profileData does not itself carry an
id field, every completed run performs exactly one upsert keyed by the
authenticated subject id; under the store's full-overwrite upsert contract
the resulting record for that id is the fresh record alone, independent of
whatever was persisted before, and exactly one of the plan group and the
failure-diagnostic group is populated in it with the other group cleared. -/
theorem c1_overwrite (env : PipelineEnv) (uid tok : String)
    (pdl : List (String × Json))
    (hm : env.method = "POST") (ht : extractToken env.authorization = some tok)
    (hv : env.verify tok = Except.ok uid) (hp : env.profileData = some pdl)
    (hid : ∀ kv ∈ pdl, kv.1 ≠ "id")
    (hparse : ∀ c p, env.parse c = Except.ok p → p ≠ Json.null) :
    ∃ r, (runPipeline env).upserts = [r] ∧ recordKey r = some uid ∧ exclusiveRecord r ∧
      ∀ st : Store, applyUpserts st (runPipeline env).upserts uid = some r := by
  cases hg : env.generate 0 with
  | error e =>
    have hrun := runPipeline_genError env uid tok pdl e hm ht hv hp hg
    refine ⟨failureRecord uid e none, by rw [hrun], recordKey_failureRecord _ _ _,
      exclusive_failureRecord _ _ _, fun st => ?_⟩
    rw [hrun]
    exact applyUpserts_single st _ uid (recordKey_failureRecord _ _ _)
  | ok text =>
    by_cases hne : text = ""
    · subst hne
      have hrun := runPipeline_emptyText env uid tok pdl hm ht hv hp hg
      refine ⟨failureRecord uid msgNoContent (some ""), by rw [hrun],
        recordKey_failureRecord _ _ _, exclusive_failureRecord _ _ _, fun st => ?_⟩
      rw [hrun]
      exact applyUpserts_single st _ uid (recordKey_failureRecord _ _ _)
    · cases hx : extract text with
      | none =>
        have hrun := runPipeline_noJson env uid tok text pdl hm ht hv hp hg hne hx
        refine ⟨failureRecord uid msgNoJson (some text), by rw [hrun],
          recordKey_failureRecord _ _ _, exclusive_failureRecord _ _ _, fun st => ?_⟩
        rw [hrun]
        exact applyUpserts_single st _ uid (recordKey_failureRecord _ _ _)
      | some c =>
        cases hpe : env.parse c with
        | error e =>
          have hrun := runPipeline_parseError env uid tok text c e pdl hm ht hv hp hg hne hx hpe
          refine ⟨failureRecord uid e (some text), by rw [hrun],
            recordKey_failureRecord _ _ _, exclusive_failureRecord _ _ _, fun st => ?_⟩
          rw [hrun]
          exact applyUpserts_single st _ uid (recordKey_failureRecord _ _ _)
        | ok plan =>
          cases hs : env.storeError with
          | some e =>
            have hrun :=
              runPipeline_storeError env uid tok text c e pdl plan hm ht hv hp hg hne hx hpe hs
            refine ⟨failureRecord uid e (some text), by rw [hrun],
              recordKey_failureRecord _ _ _, exclusive_failureRecord _ _ _, fun st => ?_⟩
            rw [hrun]
            exact applyUpserts_single st _ uid (recordKey_failureRecord _ _ _)
          | none =>
            have hrun :=
              runPipeline_success env uid tok text c pdl plan hm ht hv hp hg hne hx hpe hs
            refine ⟨finalUserData uid pdl plan, by rw [hrun], recordKey_fud uid pdl plan hid,
              exclusive_fud uid pdl plan (hparse c plan hpe), fun st => ?_⟩
            rw [hrun]
            exact applyUpserts_single st _ uid (recordKey_fud uid pdl plan hid)

/-- C1 witness: a clean successful run for subject u1 is persisted as a
single exclusively-shaped record at key u1, whatever the prior store. -/
theorem c1_witness :
    ∃ r, (runPipeline envC1w).upserts = [r] ∧ recordKey r = some "u1" ∧
      exclusiveRecord r ∧
      ∀ st : Store, applyUpserts st (runPipeline envC1w).upserts "u1" = some r := by
  apply c1_overwrite envC1w "u1" "t" [("experience", Json.str "iniciante")] rfl rfl rfl rfl
  · decide
  · intro c p h
    have hpp : envC1w.parse = parseWeek1Only := rfl
    rw [hpp] at h
    unfold parseWeek1Only at h
    split at h
    · cases h
      simp
    · cases h

/-- C2 as stated is false: the only week-key handling anywhere in the code is
part_002's check, which throws on a missing week key instead of substituting
an empty sequence, and the main pipeline persists the parsed object
unchanged, so a plan missing week4 is persisted still missing week4. -/
theorem c2_counterexample :
    weekCheckP2 (Json.obj [("week1", Json.arr []), ("week2", Json.arr []),
        ("week3", Json.arr [])])
      = Except.error "Plano incompleto gerado pela IA." ∧
    (runPipeline envC1w).status = 200 ∧
    (runPipeline envC1w).upserts
      = [finalUserData "u1" [("experience", Json.str "iniciante")]
          (Json.obj [("week1", Json.arr [])])] ∧
    jGet (Json.obj [("week1", Json.arr [])]) "week4" = none := by
  exact ⟨rfl, rfl, rfl, rfl⟩

/-- C2 amended: no normalization exists.  part_002's week check returns the
parsed object unchanged exactly when all four week keys are truthy and
otherwise fails with "Plano incompleto gerado pela IA.", substituting
nothing; the main pipeline persists the parsed object exactly as parsed. -/
theorem c2_no_normalization (j : Json) :
    (weekCheckP2 j = Except.ok j ↔
      (jsFalsy (jGet j "week1") = false ∧ jsFalsy (jGet j "week2") = false ∧
       jsFalsy (jGet j "week3") = false ∧ jsFalsy (jGet j "week4") = false)) ∧
    (∀ m, weekCheckP2 j = Except.error m → m = "Plano incompleto gerado pela IA.") ∧
    (∀ env uid tok text c pdl plan, env.method = "POST" →
      extractToken env.authorization = some tok → env.verify tok = Except.ok uid →
      env.profileData = some pdl → env.generate 0 = Except.ok text → text ≠ "" →
      extract text = some c → env.parse c = Except.ok plan → env.storeError = none →
      (runPipeline env).upserts = [finalUserData uid pdl plan] ∧
      lookupField (finalUserData uid pdl plan) "workout_plan" = some plan) := by
  refine ⟨?_, ?_, ?_⟩
  · unfold weekCheckP2
    split
    next hcond =>
      constructor
      · intro h
        simp at h
      · intro ⟨h1, h2, h3, h4⟩
        rw [h1, h2, h3, h4] at hcond
        simp at hcond
    next hcond =>
      constructor
      · intro _
        have h4 := hcond
        simp at h4
        exact ⟨h4.1.1.1, h4.1.1.2, h4.1.2, h4.2⟩
      · intro _
        rfl
  · unfold weekCheckP2
    split
    · intro m h
      injection h with h
      exact h.symm
    · intro m h
      simp at h
  · intro env uid tok text c pdl plan hm ht hv hp hg hne hx hpe hs
    rw [runPipeline_success env uid tok text c pdl plan hm ht hv hp hg hne hx hpe hs]
    exact ⟨rfl, fud_plan _ _ _⟩

/-- C2 witness: a plan carrying all four week keys passes part_002's check
unchanged. -/
theorem c2_witness : weekCheckP2 weekFull = Except.ok weekFull :=
  ((c2_no_normalization weekFull).1).mpr (by decide)

/-- C5 as stated is false for part_002: after a parse failure its catch block
stores the error's stack in rawAIResponse — neither the raw provider text nor
the no-response sentinel. -/
theorem c5_counterexample :
    (runPipelineP2 envP2x).status = 500 ∧
    (runPipelineP2 envP2x).upserts
      = [[("id", Json.str "u1"),
          ("planGenerationError", Json.str msgBadParse),
          ("rawAIResponse",
            Json.str "Error: Erro ao parsear JSON da IA.\n    at handler")]] ∧
    "Error: Erro ao parsear JSON da IA.\n    at handler" ≠ "resposta sem json" ∧
    "Error: Erro ao parsear JSON da IA.\n    at handler" ≠ noResponse := by
  refine ⟨rfl, rfl, by decide, by decide⟩

/-- C5 amended: in the main pipeline (part_000, both generatePlan.ts
variants, part_003) every failure after authentication and generation attempt
upserts exactly the diagnostic record id/planGenerationError/rawAIResponse,
where rawAIResponse is the raw provider text when one was captured and the
no-response sentinel otherwise, and the response is a 500 whose error body is
the triggering error's message.  (part_001 writes no diagnostic record and
part_002 stores the stack: see the counterexample.) -/
theorem c5_failure_capture (env : PipelineEnv) (uid tok : String)
    (pdl : List (String × Json))
    (hm : env.method = "POST") (ht : extractToken env.authorization = some tok)
    (hv : env.verify tok = Except.ok uid) (hp : env.profileData = some pdl) :
    (∀ e, env.generate 0 = Except.error e →
      runPipeline env = ⟨500, some e, [failureRecord uid e none], true, true⟩) ∧
    (env.generate 0 = Except.ok "" →
      runPipeline env
        = ⟨500, some msgNoContent, [failureRecord uid msgNoContent (some "")], true, true⟩) ∧
    (∀ text, env.generate 0 = Except.ok text → text ≠ "" → extract text = none →
      runPipeline env
        = ⟨500, some msgNoJson, [failureRecord uid msgNoJson (some text)], true, true⟩) ∧
    (∀ text c e, env.generate 0 = Except.ok text → text ≠ "" → extract text = some c →
      env.parse c = Except.error e →
      runPipeline env = ⟨500, some e, [failureRecord uid e (some text)], true, true⟩) ∧
    (∀ text c plan e, env.generate 0 = Except.ok text → text ≠ "" → extract text = some c →
      env.parse c = Except.ok plan → env.storeError = some e →
      runPipeline env = ⟨500, some e, [failureRecord uid e (some text)], true, true⟩) ∧
    (∀ text, text ≠ "" → jsOrStr (some text) noResponse = text) ∧
    jsOrStr none noResponse = noResponse ∧ jsOrStr (some "") noResponse = noResponse ∧
    (∀ msg raw, recordKey (failureRecord uid msg raw) = some uid ∧
      lookupField (failureRecord uid msg raw) "planGenerationError" = some (Json.str msg) ∧
      lookupField (failureRecord uid msg raw) "rawAIResponse"
        = some (Json.str (jsOrStr raw noResponse))) := by
  refine ⟨fun e hg => runPipeline_genError env uid tok pdl e hm ht hv hp hg,
    fun hg => runPipeline_emptyText env uid tok pdl hm ht hv hp hg,
    fun text hg hne hx => runPipeline_noJson env uid tok text pdl hm ht hv hp hg hne hx,
    fun text c e hg hne hx hpe =>
      runPipeline_parseError env uid tok text c e pdl hm ht hv hp hg hne hx hpe,
    fun text c plan e hg hne hx hpe hs =>
      runPipeline_storeError env uid tok text c e pdl plan hm ht hv hp hg hne hx hpe hs,
    fun text hne => by simp [jsOrStr, hne], rfl, rfl,
    fun msg raw => ⟨recordKey_failureRecord _ _ _, lookup_failureRecord_pge _ _ _,
      lookup_failureRecord_raw _ _ _⟩⟩

/-- C5 witness: a provider failure on a concrete run is captured as the
diagnostic record with the sentinel raw text and surfaced as a 500. -/
theorem c5_witness :
    runPipeline envGenFails
      = ⟨500, some "quota exceeded", [failureRecord "u1" "quota exceeded" none], true, true⟩ :=
  (c5_failure_capture envGenFails "u1" "t" [] rfl rfl rfl rfl).1 "quota exceeded" rfl

/-- C6: the code contradicts the claim.  The object literal puts the JS
spread of profileData after `id: userId`, so a profileData carrying its own
id field overwrites the authenticated subject id and the success write is
keyed by request-body data rather than by the verified credential; the
failure write, which has no spread, keeps the subject id. -/
theorem c6_key_override :
    lookupField (finalUserData "victim" [("id", Json.str "attacker")] (Json.obj [])) "id"
      = some (Json.str "attacker") ∧
    recordKey (finalUserData "victim" [("id", Json.str "attacker")] (Json.obj []))
      = some "attacker" ∧
    (some "attacker" : Option String) ≠ some "victim" ∧
    recordKey (failureRecord "victim" "err" none) = some "victim" ∧
    (runPipeline envC1x).upserts
      = [finalUserData "victim" [("id", Json.str "other")] (Json.obj [("week1", Json.arr [])])] ∧
    recordKey (finalUserData "victim" [("id", Json.str "other")]
        (Json.obj [("week1", Json.arr [])]))
      = some "other" := by
  refine ⟨rfl, rfl, by decide, rfl, rfl, rfl⟩

/-- C8 as stated is false: there is no fallback router.  With a provider
oracle whose first call fails with an unsupported-model error while a later
call would succeed, the pipeline fails with the first error and persists a
failure record — no second candidate is ever attempted and no winner is
recorded. -/
theorem c8_counterexample :
    (runPipeline envC8x).status = 500 ∧
    (runPipeline envC8x).body = some "404 model not supported" ∧
    (runPipeline envC8x).upserts = [failureRecord "u1" "404 model not supported" none] ∧
    envC8x.generate 1 = Except.ok "\x7b\"week1\":[]\x7d" := by
  exact ⟨rfl, rfl, rfl, rfl⟩

/-- C8 amended: each handler makes exactly one model call to one fixed model:
the whole run depends only on provider call 0, and a failure of that single
call aborts generation into the failure-persistence path with no further
candidate tried. -/
theorem c8_single_call (env : PipelineEnv) (g : Nat → Except String String)
    (hg : g 0 = env.generate 0) :
    runPipeline { env with generate := g } = runPipeline env ∧
    (∀ uid tok pdl e, env.method = "POST" → extractToken env.authorization = some tok →
      env.verify tok = Except.ok uid → env.profileData = some pdl →
      env.generate 0 = Except.error e →
      runPipeline env = ⟨500, some e, [failureRecord uid e none], true, true⟩) := by
  constructor
  · unfold runPipeline
    rw [show ({ env with generate := g } : PipelineEnv).generate 0 = env.generate 0 from hg]
  · exact fun uid tok pdl e hm ht hv hp hgen =>
      runPipeline_genError env uid tok pdl e hm ht hv hp hgen

/-- C8 witness: two oracles agreeing on call 0 yield identical runs. -/
theorem c8_witness :
    runPipeline { envGenFails with generate := genAlt } = runPipeline envGenFails :=
  (c8_single_call envGenFails genAlt rfl).1

theorem hasSub_of_tail (s part t a : String) (hs : s = a ++ part) (h : hasSub part t) :
    hasSub s t := by
  subst hs
  obtain ⟨u, v, huv⟩ := h
  exact ⟨a.data ++ u, v, by rw [String.data_append, ← huv]; simp⟩

/-- C7 as stated is false: the OpenAI prompt of src/api/generatePlan.ts
interpolates only experience, goal and the joined run days, so a profile
supplying weight 70 and height 170 yields a prompt containing neither value
and no placeholder for them. -/
theorem c7_counterexample :
    profileX.weight = some 70 ∧ profileX.height = some 170 ∧
    ¬ hasSub (promptGP1 profileX) "70" ∧ ¬ hasSub (promptGP1 profileX) "170" := by
  refine ⟨rfl, rfl, ?_, ?_⟩
  · intro h
    exact absurd ((containsB_iff _ _).mpr h) (by decide)
  · intro h
    exact absurd ((containsB_iff _ _).mpr h) (by decide)

/-- C7 amended: part_002's builder (like part_003's) satisfies the claim in
full — for every profile with non-empty run days the built prompt contains
the experience and goal verbatim, the rendered weight and height (the
supplied number, or the explicit "não informado" placeholder when the field
is absent, never a silent omission), the comma-joined run-day list, and the
literal tokens week1, week2, week3, week4.  (The generatePlan.ts OpenAI
prompt and part_000 omit weight and height entirely; the generatePlan.ts
Gemini prompt lacks the week tokens; part_001 stringifies the profile with
neither week tokens nor placeholders.) -/
theorem c7_prompt_builder (p : ProfileInput) (hdays : p.run_days ≠ []) :
    hasSub (promptUserP2 p) p.experience ∧
    hasSub (promptUserP2 p) p.goal ∧
    hasSub (promptUserP2 p) (jsNumOr p.weight) ∧
    hasSub (promptUserP2 p) (jsNumOr p.height) ∧
    (p.weight = none → hasSub (promptUserP2 p) "não informado") ∧
    (p.height = none → hasSub (promptUserP2 p) "não informado") ∧
    hasSub (promptUserP2 p) (String.intercalate ", " p.run_days) ∧
    hasSub (promptUserP2 p) "week1" ∧ hasSub (promptUserP2 p) "week2" ∧
    hasSub (promptUserP2 p) "week3" ∧ hasSub (promptUserP2 p) "week4" := by
  have hexp : hasSub (promptUserP2 p) p.experience :=
    hasSub_of_eq _ _ litP2a
      (litP2b ++ p.goal ++ litP2c ++ jsNumOr p.weight ++ litP2d ++ jsNumOr p.height
        ++ litP2e ++ String.intercalate ", " p.run_days ++ litP2f)
      (by simp [promptUserP2, String.append_assoc])
  have hgoal : hasSub (promptUserP2 p) p.goal :=
    hasSub_of_eq _ _ (litP2a ++ p.experience ++ litP2b)
      (litP2c ++ jsNumOr p.weight ++ litP2d ++ jsNumOr p.height
        ++ litP2e ++ String.intercalate ", " p.run_days ++ litP2f)
      (by simp [promptUserP2, String.append_assoc])
  have hweight : hasSub (promptUserP2 p) (jsNumOr p.weight) :=
    hasSub_of_eq _ _ (litP2a ++ p.experience ++ litP2b ++ p.goal ++ litP2c)
      (litP2d ++ jsNumOr p.height ++ litP2e ++ String.intercalate ", " p.run_days ++ litP2f)
      (by simp [promptUserP2, String.append_assoc])
  have hheight : hasSub (promptUserP2 p) (jsNumOr p.height) :=
    hasSub_of_eq _ _
      (litP2a ++ p.experience ++ litP2b ++ p.goal ++ litP2c ++ jsNumOr p.weight ++ litP2d)
      (litP2e ++ String.intercalate ", " p.run_days ++ litP2f)
      (by simp [promptUserP2, String.append_assoc])
  have hdaysub : hasSub (promptUserP2 p) (String.intercalate ", " p.run_days) :=
    hasSub_of_eq _ _
      (litP2a ++ p.experience ++ litP2b ++ p.goal ++ litP2c ++ jsNumOr p.weight ++ litP2d
        ++ jsNumOr p.height ++ litP2e)
      litP2f
      (by simp [promptUserP2, String.append_assoc])
  have htail : promptUserP2 p
      = (litP2a ++ p.experience ++ litP2b ++ p.goal ++ litP2c ++ jsNumOr p.weight ++ litP2d
          ++ jsNumOr p.height ++ litP2e ++ String.intercalate ", " p.run_days) ++ litP2f := by
    simp [promptUserP2, String.append_assoc]
  refine ⟨hexp, hgoal, hweight, hheight, ?_, ?_, hdaysub,
    hasSub_of_tail _ litP2f _ _ htail ((containsB_iff _ _).mp (by decide)),
    hasSub_of_tail _ litP2f _ _ htail ((containsB_iff _ _).mp (by decide)),
    hasSub_of_tail _ litP2f _ _ htail ((containsB_iff _ _).mp (by decide)),
    hasSub_of_tail _ litP2f _ _ htail ((containsB_iff _ _).mp (by decide))⟩
  · intro h0
    rw [h0] at hweight
    simpa [jsNumOr] using hweight
  · intro h0
    rw [h0] at hheight
    simpa [jsNumOr] using hheight

/-- C7 witness: the part_002 prompt for a concrete full profile contains the
supplied weight value and the week4 token. -/
theorem c7_witness :
    hasSub (promptUserP2 profileX) "70" ∧ hasSub (promptUserP2 profileX) "week4" := by
  have h := c7_prompt_builder profileX (by decide)
  refine ⟨?_, h.2.2.2.2.2.2.2.2.2.2⟩
  have hw : jsNumOr profileX.weight = "70" := rfl
  have := h.2.2.1
  rwa [hw] at this

/-- C9: generateMonthDays (its clock read modelled as the year/month pair)
always returns a non-empty list, with no failure path, whose length is the
day count of that calendar month — between 28 and 31 — and whose i-th entry
is exactly the pt-BR weekday name of day i+1 of the month with its first
character uppercased; in particular every entry is one of the seven
capitalized pt-BR weekday names. -/
theorem c9_monthDays (y m : Nat) (hm : m < 12) :
    generateMonthDays y m ≠ [] ∧
    (generateMonthDays y m).length = daysInMonth y m ∧
    28 ≤ (generateMonthDays y m).length ∧
    (generateMonthDays y m).length ≤ 31 ∧
    (∀ i, i < daysInMonth y m →
      (generateMonthDays y m).get? i
        = some (capitalizeFirst (weekdayName (dayOfWeek y m (i + 1))))) ∧
    (∀ s ∈ generateMonthDays y m, s ∈ ptBrCapitalizedNames) := by
  have hlen : (generateMonthDays y m).length = daysInMonth y m := by
    simp [generateMonthDays]
  have hb := daysInMonth_bounds y m
  refine ⟨?_, hlen, by omega, by omega, ?_, ?_⟩
  · apply List.ne_nil_of_length_pos
    omega
  · intro i hi
    simp [generateMonthDays, List.get?_map, List.get?_range, hi]
  · intro s hs
    simp only [generateMonthDays, List.mem_map] at hs
    obtain ⟨i, hi, rfl⟩ := hs
    apply capName_mem
    unfold dayOfWeek
    exact Nat.mod_lt _ (by decide)

/-- C9 witness: October 2025 has 31 entries and its first day is a
Wednesday. -/
theorem c9_witness :
    (generateMonthDays 2025 9).length = 31 ∧
    (generateMonthDays 2025 9).get? 0 = some "Quarta-feira" := by
  have h := c9_monthDays 2025 9 (by decide)
  refine ⟨(h.2.1).trans (by decide), ?_⟩
  have h0 := h.2.2.2.2.1 0 (by decide)
  rw [h0]
  rfl
